import Mathlib

/-!
Verification of the roslib-with-foxglove bridge (`src/FoxgloveRos.ts`).

The `FoxgloveSocket` class translates roslib verbs (advertise, unadvertise,
publish, subscribe, unsubscribe, call_service) into Foxglove ws-protocol
commands.  This file shallowly embeds its data model and operations:

* JavaScript `Map`s become insertion-ordered association lists (`alFind`,
  `alSet`, `alDel` mirror `Map.get/set/delete`);
* the message-reader and message-writer compilation (`#getMessageReader`,
  `#getMessageWriter`) is embedded with the external parser/serializer
  libraries abstracted to the tag of codec they would construct;
* the event listeners registered by `#callService`, `#getParam` and the
  deferred lookups `#getChannel` / `#getService` become explicit one-shot
  listener states stepped by incoming transport events;
* the imperative transport commands (`client.advertise`, `client.sendMessage`,
  `client.sendServiceCallRequest`, ...) become an output list of `Command`s.
-/

namespace FoxgloveBridge

/-! ## Association lists mirroring JavaScript `Map` -/

/-- JavaScript `Map.get`: value stored under key `k`, if any. -/
def alFind {α β : Type} [DecidableEq α] (k : α) : List (α × β) → Option β
  | [] => none
  | p :: rest => if p.1 = k then some p.2 else alFind k rest

/-- JavaScript `Map.set`: replace in place if the key is present (keeping insertion
order), append otherwise. -/
def alSet {α β : Type} [DecidableEq α] (k : α) (v : β) : List (α × β) → List (α × β)
  | [] => [(k, v)]
  | p :: rest => if p.1 = k then (k, v) :: rest else p :: alSet k v rest

/-- JavaScript `Map.delete`: remove the entry stored under `k`, if any. -/
def alDel {α β : Type} [DecidableEq α] (k : α) : List (α × β) → List (α × β)
  | [] => []
  | p :: rest => if p.1 = k then rest else p :: alDel k rest

theorem alFind_alSet_self {α β : Type} [DecidableEq α] (k : α) (v : β)
    (l : List (α × β)) : alFind k (alSet k v l) = some v := by
  induction l with
  | nil => simp [alSet, alFind]
  | cons p rest ih =>
    by_cases h : p.1 = k
    · simp [alSet, alFind, h]
    · simp [alSet, alFind, h, ih]

theorem alSet_keys {α β : Type} [DecidableEq α] (k : α) (v : β)
    (l : List (α × β)) :
    (alSet k v l).map Prod.fst =
      if k ∈ l.map Prod.fst then l.map Prod.fst else l.map Prod.fst ++ [k] := by
  induction l with
  | nil => simp [alSet]
  | cons p rest ih =>
    by_cases h : p.1 = k
    · simp [alSet, h]
    · have hne : ¬k = p.1 := fun hk => h hk.symm
      by_cases hm : k ∈ rest.map Prod.fst
      · simp [alSet, h, ih, hm, hne]
      · simp [alSet, h, ih, hm, hne]

theorem alSet_keys_nodup {α β : Type} [DecidableEq α] (k : α) (v : β)
    (l : List (α × β)) (h : (l.map Prod.fst).Nodup) :
    ((alSet k v l).map Prod.fst).Nodup := by
  rw [alSet_keys]
  split
  · exact h
  · next hk =>
    simp only [List.nodup_append, List.nodup_cons, List.nodup_nil]
    refine ⟨h, by simp, ?_⟩
    intro a ha hb
    simp only [List.mem_singleton] at hb
    exact hk (hb ▸ ha)

theorem mem_alSet {α β : Type} [DecidableEq α] (k : α) (v : β)
    (l : List (α × β)) : ∀ p : α × β, p ∈ alSet k v l → p = (k, v) ∨ p ∈ l := by
  induction l with
  | nil =>
    intro p h
    simp only [alSet, List.mem_singleton] at h
    exact Or.inl h
  | cons q rest ih =>
    intro p h
    by_cases hq : q.1 = k
    · simp only [alSet, if_pos hq, List.mem_cons] at h
      rcases h with h1 | h1
      · exact Or.inl h1
      · exact Or.inr (List.mem_cons_of_mem _ h1)
    · simp only [alSet, if_neg hq, List.mem_cons] at h
      rcases h with h1 | h1
      · exact Or.inr (h1 ▸ List.mem_cons_self q rest)
      · rcases ih p h1 with h2 | h2
        · exact Or.inl h2
        · exact Or.inr (List.mem_cons_of_mem _ h2)

theorem alDel_sublist {α β : Type} [DecidableEq α] (k : α)
    (l : List (α × β)) : (alDel k l).Sublist l := by
  induction l with
  | nil => simp [alDel]
  | cons p rest ih =>
    by_cases h : p.1 = k
    · simp only [alDel, if_pos h]
      exact List.sublist_cons_self p rest
    · simp only [alDel, if_neg h]
      exact List.Sublist.cons₂ p ih

theorem alDel_keys_nodup {α β : Type} [DecidableEq α] (k : α)
    (l : List (α × β)) (h : (l.map Prod.fst).Nodup) :
    ((alDel k l).map Prod.fst).Nodup :=
  h.sublist (List.Sublist.map Prod.fst (alDel_sublist k l))

theorem mem_alDel {α β : Type} [DecidableEq α] {p : α × β} (k : α)
    (l : List (α × β)) (h : p ∈ alDel k l) : p ∈ l :=
  (alDel_sublist k l).subset h

/-! ## Data model: channels, services (`@foxglove/ws-protocol` shapes) -/

/-- The `request` / `response` sub-object of a ws-protocol `Service`. -/
structure SchemaInfo where
  schema : String
  schemaEncoding : Option String
deriving DecidableEq, Repr

/-- A remote-advertised channel (`Channel` from `@foxglove/ws-protocol`).
`schema` is `Option` so the `typeof schema !== 'string'` runtime guard in
`#getMessageReader` / `#getMessageWriter` is expressible. -/
structure Channel where
  id : Nat
  topic : String
  encoding : String
  schemaName : String
  schema : Option String
  schemaEncoding : Option String
deriving DecidableEq, Repr

/-- A remote-advertised service (`Service` from `@foxglove/ws-protocol`),
with both the new `request`/`response` sub-objects and the legacy
`requestSchema`/`responseSchema` fields the code falls back to. -/
structure Service where
  id : Nat
  name : String
  type : String
  request : Option SchemaInfo
  response : Option SchemaInfo
  requestSchema : Option String
  responseSchema : Option String
deriving DecidableEq, Repr

/-- The `channelOrService : Channel | Service` union discriminated in the
source by `'schema' in channelOrService`. -/
inductive Entity where
  | channel (c : Channel)
  | service (s : Service)
deriving DecidableEq, Repr

/-! ## Codec compilation (`#getMessageReader` / `#getMessageWriter`)

The external parsers (`parseRos2idl`, `parse`) and serializer classes
(`Ros1MessageReader`, `Ros2MessageReader`, ...) are external collaborators;
a compiled codec is embedded as the record of which parser ran on which
schema text, which is exactly what distinguishes two compiled codec
objects. -/

inductive ParsedSchema where
  | ros2idl (schema : String)
  | rosmsg (schema : String) (ros2 : Bool)
deriving DecidableEq, Repr

structure MessageReader where
  ros2 : Bool
  parsed : ParsedSchema
deriving DecidableEq, Repr

structure MessageWriter where
  ros2 : Bool
  parsed : ParsedSchema
deriving DecidableEq, Repr

/-- The reader construction in `#getMessageReader`: generation flag picks the
serializer class, a `'ros2idl'` schema encoding picks the IDL parser. -/
def compileReader (isRos2 : Bool) (schema : String)
    (schemaEncoding : Option String) : MessageReader :=
  if isRos2 then
    { ros2 := true,
      parsed := if schemaEncoding = some "ros2idl" then .ros2idl schema
                else .rosmsg schema true }
  else { ros2 := false, parsed := .rosmsg schema false }

/-- The writer construction in `#getMessageWriter`. -/
def compileWriter (isRos2 : Bool) (schema : String)
    (schemaEncoding : Option String) : MessageWriter :=
  if isRos2 then
    { ros2 := true,
      parsed := if schemaEncoding = some "ros2idl" then .ros2idl schema
                else .rosmsg schema true }
  else { ros2 := false, parsed := .rosmsg schema false }

/-- The cache key: `'schema' in x ? x.schemaName : x.type`. -/
def entityName : Entity → String
  | .channel c => c.schemaName
  | .service s => s.type

/-- Reader schema: channel schema, or
`service.response?.schema ?? service.responseSchema`. -/
def resolveReaderSchema : Entity → Option String
  | .channel c => c.schema
  | .service s => match s.response with
                  | some i => some i.schema
                  | none => s.responseSchema

/-- Reader schema encoding: channel `schemaEncoding`, or
`service.response?.schemaEncoding`. -/
def resolveReaderEncoding : Entity → Option String
  | .channel c => c.schemaEncoding
  | .service s => s.response.bind (fun i => i.schemaEncoding)

/-- Writer schema: channel schema, or
`service.request?.schema ?? service.requestSchema`. -/
def resolveWriterSchema : Entity → Option String
  | .channel c => c.schema
  | .service s => match s.request with
                  | some i => some i.schema
                  | none => s.requestSchema

/-- Writer schema encoding: channel `schemaEncoding`, or
`service.request?.schemaEncoding`. -/
def resolveWriterEncoding : Entity → Option String
  | .channel c => c.schemaEncoding
  | .service s => s.request.bind (fun i => i.schemaEncoding)

/-- Method `#getMessageReader`: return the cached reader for the schema name if
present; otherwise check the schema text (throwing `'schema not found'` when
absent), compile, and cache.  The returned cache is unchanged on a hit and
on the error path. -/
def getMessageReader (isRos2 : Bool) (cache : List (String × MessageReader))
    (e : Entity) : Except String MessageReader × List (String × MessageReader) :=
  match alFind (entityName e) cache with
  | some r => (Except.ok r, cache)
  | none =>
    match resolveReaderSchema e with
    | none => (Except.error "schema not found", cache)
    | some schema =>
      let r := compileReader isRos2 schema (resolveReaderEncoding e)
      (Except.ok r, alSet (entityName e) r cache)

/-- Method `#getMessageWriter`, symmetric to `getMessageReader` over the request
schema. -/
def getMessageWriter (isRos2 : Bool) (cache : List (String × MessageWriter))
    (e : Entity) : Except String MessageWriter × List (String × MessageWriter) :=
  match alFind (entityName e) cache with
  | some w => (Except.ok w, cache)
  | none =>
    match resolveWriterSchema e with
    | none => (Except.error "schema not found", cache)
    | some schema =>
      let w := compileWriter isRos2 schema (resolveWriterEncoding e)
      (Except.ok w, alSet (entityName e) w cache)

/-! ## Payloads, emissions and transport commands -/

/-- The `args` field of a `call_service` message: an opaque structured value
for generic calls, or the shapes the rosapi pseudo-services read
(`{name}`, `{name, value}`, `{topic}`, `{service}`). -/
inductive CallArgs where
  | raw (payload : String)
  | named (name : String)
  | namedValue (name : String) (value : String)
  | topicArg (topic : String)
  | serviceArg (service : String)
deriving DecidableEq, Repr

def argsName : CallArgs → String
  | .named n => n
  | .namedValue n _ => n
  | _ => ""

def argsValue : CallArgs → String
  | .namedValue _ v => v
  | _ => ""

def argsTopic : CallArgs → String
  | .topicArg t => t
  | _ => ""

def argsService : CallArgs → String
  | .serviceArg s => s
  | _ => ""

/-- Bytes produced by a writer: `writer.writeMessage(x)` for a published
message or for service-call `args`.  The pairing of writer and input is what
identifies the serialized payload. -/
inductive Encoded where
  | message (w : MessageWriter) (msg : String)
  | request (w : MessageWriter) (args : CallArgs)
deriving DecidableEq, Repr

/-- A structured value produced by `reader.readMessage(data)`. -/
inductive Decoded where
  | value (r : MessageReader) (data : List Nat)
deriving DecidableEq, Repr

/-- A remote parameter value (`#getParam` JSON-stringifies it). -/
inductive ParamValue where
  | boolVal (b : Bool)
  | intVal (n : Int)
  | strVal (s : String)
deriving DecidableEq, Repr

/-- JavaScript `JSON.stringify` on the parameter values modelled here. -/
def jsonStringify : ParamValue → String
  | .boolVal true => "true"
  | .boolVal false => "false"
  | .intVal n => toString n
  | .strVal s => "\x22" ++ s ++ "\x22"

/-- The `values` component of a `ros.emit(id, {values, result})` call. -/
inductive EmitValues where
  | decoded (v : Decoded)
  | failureMessage (s : String)
  | paramValue (json : String)
  | topics (names : List String) (types : List String)
  | typeName (t : String)
  | noValues
deriving DecidableEq, Repr

/-- One `ros.emit(id, {values, result})` call observed by roslib. -/
structure Emission where
  id : String
  values : EmitValues
  result : Bool
deriving DecidableEq, Repr

/-- Imperative commands issued on the `FoxgloveClient`. -/
inductive Command where
  | advertiseTopic (publisherId : Nat) (topic : String) (encoding : String)
      (schemaName : String)
  | unadvertisePublisher (publisherId : Nat)
  | sendMessage (publisherId : Nat) (data : Encoded)
  | sendServiceCallRequest (serviceId : Nat) (callId : Nat) (encoding : String)
      (data : Encoded)
  | getParameters (names : List String) (requestId : String)
  | setParameters (entries : List (String × String)) (requestId : String)
  | subscribeConnectionGraph
deriving DecidableEq, Repr

def Command.isServiceCallRequest : Command → Bool
  | .sendServiceCallRequest _ _ _ _ => true
  | _ => false

/-- The encoding tag `this.#isRos2 ? 'cdr' : 'ros1'`. -/
def encodingOf (isRos2 : Bool) : String := if isRos2 then "cdr" else "ros1"

/-! ## One-shot service-call listeners (`#callService`, lines 214-231) -/

/-- The `serviceCallResponse` listener registered by one `#callService`:
closes over the resolved service id, the call id, the compiled response
reader, and the caller correlation id `message.id`. -/
structure SuccessListener where
  serviceId : Nat
  callId : Nat
  reader : MessageReader
  emitId : String
deriving DecidableEq, Repr

/-- The `serviceCallFailure` listener registered by the same call. -/
structure FailureListener where
  serviceId : Nat
  callId : Nat
  emitId : String
deriving DecidableEq, Repr

/-- The pair of listeners one call leaves on the client event stream;
`none` means the listener has detached itself (`client.off`). -/
structure CallListeners where
  success : Option SuccessListener
  failure : Option FailureListener
deriving DecidableEq, Repr

/-- Service-call events arriving from the transport. -/
inductive ClientEvent where
  | serviceCallResponse (serviceId : Nat) (callId : Nat) (data : List Nat)
  | serviceCallFailure (serviceId : Nat) (callId : Nat) (message : String)
deriving DecidableEq, Repr

/-- Deliver one transport event to the (still-registered) listeners: each
listener fires only on its exact `(serviceId, callId)` key, detaches itself,
and emits once. -/
def stepCallListeners (L : CallListeners) (e : ClientEvent) :
    CallListeners × List Emission :=
  match e with
  | .serviceCallResponse sid cid d =>
    match L.success with
    | some sl =>
      if sid = sl.serviceId ∧ cid = sl.callId then
        ({ L with success := none },
         [{ id := sl.emitId, values := .decoded (.value sl.reader d),
            result := true }])
      else (L, [])
    | none => (L, [])
  | .serviceCallFailure sid cid msg =>
    match L.failure with
    | some fl =>
      if sid = fl.serviceId ∧ cid = fl.callId then
        ({ L with failure := none },
         [{ id := fl.emitId, values := .failureMessage msg, result := false }])
      else (L, [])
    | none => (L, [])

/-- Deliver a whole event sequence. -/
def runCallListeners (L : CallListeners) : List ClientEvent →
    CallListeners × List Emission
  | [] => (L, [])
  | e :: es =>
    let r := stepCallListeners L e
    let r' := runCallListeners r.1 es
    (r'.1, r.2 ++ r'.2)

/-- The data of a `serviceCallResponse` event iff it carries the success
listener's exact `(serviceId, callId)` key. -/
def matchingResponse (sl : SuccessListener) : ClientEvent → Option (List Nat)
  | .serviceCallResponse sid cid d =>
    if sid = sl.serviceId ∧ cid = sl.callId then some d else none
  | .serviceCallFailure _ _ _ => none

/-- Data of the first event matching the success listener's key. -/
def firstMatchingData (sl : SuccessListener) : List ClientEvent → Option (List Nat)
  | [] => none
  | e :: es =>
    match matchingResponse sl e with
    | some d => some d
    | none => firstMatchingData sl es

/-! ## Parameter listeners (`#getParam`, lines 241-254) -/

/-- The one-shot `parameterValues` listener registered by `#getParam`. -/
structure ParamListener where
  name : String
  emitId : String
deriving DecidableEq, Repr

/-- A `parameterValues` transport event: request id and the `{name, value}`
parameter list. -/
structure ParamEvent where
  id : String
  parameters : List (String × ParamValue)
deriving DecidableEq, Repr

/-- Deliver one `parameterValues` event: fires iff the first parameter's
name and the event id both match, detaching and emitting the
JSON-stringified value under key `value`. -/
def stepParamListener (L : Option ParamListener) (e : ParamEvent) :
    Option ParamListener × List Emission :=
  match L with
  | none => (none, [])
  | some l =>
    match e.parameters.head? with
    | some p =>
      if p.1 = l.name ∧ e.id = l.emitId then
        (none, [{ id := l.emitId, values := .paramValue (jsonStringify p.2),
                  result := true }])
      else (some l, [])
    | none => (some l, [])

/-- JavaScript `message.args.name.replace(':', '.')` — string-pattern
`replace` rewrites only the first occurrence. -/
def replaceFirstColon : List Char → List Char
  | [] => []
  | c :: cs => if c = ':' then '.' :: cs else c :: replaceFirstColon cs

def jsReplaceColonDot (s : String) : String := ⟨replaceFirstColon s.data⟩

/-- Method `#getParam` up to its transport command: converts the name separator,
registers the one-shot listener, and issues `getParameters([name], id)`. -/
def doGetParam (reqId : String) (argName : String) :
    List Command × ParamListener :=
  let n := jsReplaceColonDot argName
  ([Command.getParameters [n] reqId], { name := n, emitId := reqId })

/-! ## Socket state (`FoxgloveSocket` fields) -/

/-- A pending `#getChannel` deferred: the `advertise` listener registered at
lines 318-332, waiting for a channel with the given topic name.  `resolved`
records the channel it resolved with once the listener has detached. -/
structure ChannelWaiter where
  name : String
  resolved : Option Channel
deriving DecidableEq, Repr

/-- A pending `#getService` deferred (lines 334-348). -/
structure ServiceWaiter where
  name : String
  resolved : Option Service
deriving DecidableEq, Repr

/-- The publish promise stored in `#publishByName`: pending until the topic's
channel is advertised and its writer compiles (publishes issued meanwhile
await the promise, i.e. queue), then ready with the compiled writer.  The
publisher id is captured by the closure at `#advertise` time. -/
inductive PubEntry where
  | pending (publisherId : Nat) (queued : List String)
  | ready (publisherId : Nat) (writer : MessageWriter)
deriving DecidableEq, Repr

/-- The mutable fields of one `FoxgloveSocket`.  `sentCallIds` is a history
variable recording the `callId` of every `sendServiceCallRequest` issued so
far; `nextPublisherId` stands for the transport's publisher-id allocator. -/
structure SocketState where
  isRos2 : Bool
  messageReaders : List (String × MessageReader)
  messageWriters : List (String × MessageWriter)
  channelsById : List (Nat × Channel)
  channelsByName : List (String × Channel)
  servicesById : List (Nat × Service)
  servicesByName : List (String × Service)
  unadvertiseByName : List (String × Nat)
  publishByName : List (String × PubEntry)
  callId : Nat
  nextPublisherId : Nat
  channelWaiters : List ChannelWaiter
  serviceWaiters : List ServiceWaiter
  sentCallIds : List Nat
deriving Repr

def initialState (isRos2 : Bool) : SocketState :=
  { isRos2 := isRos2, messageReaders := [], messageWriters := [],
    channelsById := [], channelsByName := [], servicesById := [],
    servicesByName := [], unadvertiseByName := [], publishByName := [],
    callId := 0, nextPublisherId := 0, channelWaiters := [],
    serviceWaiters := [], sentCallIds := [] }

/-! ## Directory event handlers (constructor, lines 55-86) -/

/-- The `client.on('advertise')` handler: `set` each channel into both
indices. -/
def recordChannels (s : SocketState) (chs : List Channel) : SocketState :=
  chs.foldl
    (fun st c =>
      { st with channelsById := alSet c.id c st.channelsById,
                channelsByName := alSet c.topic c st.channelsByName }) s

/-- The `client.on('unadvertise')` handler: look each id up in the id index
and, when found, delete the found channel's id and topic from the two
indices; unknown ids are skipped. -/
def removeChannels (s : SocketState) (ids : List Nat) : SocketState :=
  ids.foldl
    (fun st cid =>
      match alFind cid st.channelsById with
      | some ch =>
        { st with channelsById := alDel ch.id st.channelsById,
                  channelsByName := alDel ch.topic st.channelsByName }
      | none => st) s

/-- The `client.on('advertiseServices')` handler. -/
def recordServices (s : SocketState) (svs : List Service) : SocketState :=
  svs.foldl
    (fun st sv =>
      { st with servicesById := alSet sv.id sv st.servicesById,
                servicesByName := alSet sv.name sv st.servicesByName }) s

/-- The `client.on('unadvertiseServices')` handler. -/
def removeServices (s : SocketState) (ids : List Nat) : SocketState :=
  ids.foldl
    (fun st sid =>
      match alFind sid st.servicesById with
      | some sv =>
        { st with servicesById := alDel sv.id st.servicesById,
                  servicesByName := alDel sv.name st.servicesByName }
      | none => st) s

/-- One `#getChannel` waiter listener on an `advertise` event: an already
resolved (detached) waiter is untouched; a pending one resolves with
`channels.find(c => c.topic === name)` when that search succeeds. -/
def resolveChannelWaiter (chs : List Channel) (w : ChannelWaiter) : ChannelWaiter :=
  match w.resolved with
  | some _ => w
  | none =>
    match chs.find? (fun c => c.topic == w.name) with
    | some c => { w with resolved := some c }
    | none => w

/-- One `#getService` waiter listener on an `advertiseServices` event. -/
def resolveServiceWaiter (svs : List Service) (w : ServiceWaiter) : ServiceWaiter :=
  match w.resolved with
  | some _ => w
  | none =>
    match svs.find? (fun sv => sv.name == w.name) with
    | some sv => { w with resolved := some sv }
    | none => w

/-- Resolve the pending publish promises against a freshly advertised channel
list: for each pending entry whose topic appears in the event, compile the
writer (through the shared writer cache) and flush the queued publishes as
`sendMessage(publisherId, writer.writeMessage(msg))` commands.  A writer
compile error rejects the promise: the entry stays unresolved. -/
def resolvePubEntries (isRos2 : Bool) (chs : List Channel) :
    List (String × PubEntry) → List (String × MessageWriter) →
    List (String × PubEntry) × List (String × MessageWriter) × List Command
  | [], wc => ([], wc, [])
  | (t, e) :: rest, wc =>
    match e with
    | .ready pid w =>
      let r := resolvePubEntries isRos2 chs rest wc
      ((t, .ready pid w) :: r.1, r.2.1, r.2.2)
    | .pending pid q =>
      match chs.find? (fun c => c.topic == t) with
      | none =>
        let r := resolvePubEntries isRos2 chs rest wc
        ((t, .pending pid q) :: r.1, r.2.1, r.2.2)
      | some ch =>
        match getMessageWriter isRos2 wc (.channel ch) with
        | (.ok w, wc1) =>
          let r := resolvePubEntries isRos2 chs rest wc1
          ((t, .ready pid w) :: r.1, r.2.1,
           q.map (fun msg => Command.sendMessage pid (.message w msg)) ++ r.2.2)
        | (.error _, wc1) =>
          let r := resolvePubEntries isRos2 chs rest wc1
          ((t, .pending pid q) :: r.1, r.2.1, r.2.2)

/-- Everything that happens when the client emits one `advertise` event: the
constructor handler updates the two channel indices, every registered
`#getChannel` waiter listener runs, and pending publish promises resolve. -/
def onChannelsAdvertised (s : SocketState) (chs : List Channel) :
    SocketState × List Command :=
  let s1 := recordChannels s chs
  let r := resolvePubEntries s.isRos2 chs s1.publishByName s1.messageWriters
  ({ s1 with channelWaiters := s1.channelWaiters.map (resolveChannelWaiter chs),
             publishByName := r.1, messageWriters := r.2.1 }, r.2.2)

/-- Everything that happens on one `advertiseServices` event. -/
def onServicesAdvertised (s : SocketState) (svs : List Service) : SocketState :=
  let s1 := recordServices s svs
  { s1 with serviceWaiters := s1.serviceWaiters.map (resolveServiceWaiter svs) }

/-- A peer directory announcement/retraction event. -/
inductive DirEvent where
  | advertiseChannels (chs : List Channel)
  | unadvertiseChannels (ids : List Nat)
  | advertiseServices (svs : List Service)
  | unadvertiseServices (ids : List Nat)
deriving Repr

def applyDirEvent (s : SocketState) (e : DirEvent) : SocketState :=
  match e with
  | .advertiseChannels chs => (onChannelsAdvertised s chs).1
  | .unadvertiseChannels ids => removeChannels s ids
  | .advertiseServices svs => onServicesAdvertised s svs
  | .unadvertiseServices ids => removeServices s ids

def applyDirEvents (s : SocketState) (evs : List DirEvent) : SocketState :=
  evs.foldl applyDirEvent s

/-! ## Directory lookups (`#getChannel` / `#getService`) -/

inductive LookupResult (α : Type) where
  | immediate (a : α)
  | deferred
deriving DecidableEq, Repr

/-- Method `#getChannel`: return the name-index entry when present, otherwise
register a waiter listener on the `advertise` stream. -/
def doGetChannel (s : SocketState) (name : String) :
    SocketState × LookupResult Channel :=
  match alFind name s.channelsByName with
  | some c => (s, .immediate c)
  | none =>
    ({ s with channelWaiters := s.channelWaiters ++ [{ name := name, resolved := none }] },
     .deferred)

/-- Method `#getService`, symmetric. -/
def doGetService (s : SocketState) (name : String) :
    SocketState × LookupResult Service :=
  match alFind name s.servicesByName with
  | some sv => (s, .immediate sv)
  | none =>
    ({ s with serviceWaiters := s.serviceWaiters ++ [{ name := name, resolved := none }] },
     .deferred)

/-! ## advertise / unadvertise / publish (`#advertise`, `#unadvertise`,
`#publish`) -/

/-- Method `#advertise`: issue the transport advertise (allocating a publisher id),
store the unadvertise closure, and store the publish promise.  The promise
resolves at once when the channel is already known and its writer compiles;
otherwise it stays pending until an `advertise` event carries the topic. -/
def doAdvertise (s : SocketState) (topic ty : String) :
    SocketState × List Command :=
  let pid := s.nextPublisherId
  let advCmd := Command.advertiseTopic pid topic (encodingOf s.isRos2) ty
  match alFind topic s.channelsByName with
  | some ch =>
    match getMessageWriter s.isRos2 s.messageWriters (.channel ch) with
    | (.ok w, wc) =>
      ({ s with nextPublisherId := pid + 1,
                messageWriters := wc,
                unadvertiseByName := alSet topic pid s.unadvertiseByName,
                publishByName := alSet topic (.ready pid w) s.publishByName },
       [advCmd])
    | (.error _, wc) =>
      ({ s with nextPublisherId := pid + 1,
                messageWriters := wc,
                unadvertiseByName := alSet topic pid s.unadvertiseByName,
                publishByName := alSet topic (.pending pid []) s.publishByName },
       [advCmd])
  | none =>
    ({ s with nextPublisherId := pid + 1,
              unadvertiseByName := alSet topic pid s.unadvertiseByName,
              publishByName := alSet topic (.pending pid []) s.publishByName },
     [advCmd])

/-- Method `#unadvertise`: invoke the stored closure (sending the transport
unadvertise for the captured publisher id) if present, then delete it.  The
`#publishByName` entry is not touched. -/
def doUnadvertise (s : SocketState) (topic : String) :
    SocketState × List Command :=
  let cmds :=
    match alFind topic s.unadvertiseByName with
    | some pid => [Command.unadvertisePublisher pid]
    | none => []
  ({ s with unadvertiseByName := alDel topic s.unadvertiseByName }, cmds)

/-- Method `#publish`: await the stored publish promise; with no entry the awaited
value is `undefined` and the publish is dropped; a resolved promise sends
the serialized payload at once; a pending one queues the message behind the
promise. -/
def doPublish (s : SocketState) (topic : String) (msg : String) :
    SocketState × List Command :=
  match alFind topic s.publishByName with
  | none => (s, [])
  | some (.ready pid w) => (s, [Command.sendMessage pid (.message w msg)])
  | some (.pending pid q) =>
    ({ s with publishByName := alSet topic (.pending pid (q ++ [msg])) s.publishByName },
     [])

/-! ## call_service (`#callService`, lines 187-239) and the rosapi
pseudo-services -/

/-- A `call_service` message from roslib. -/
structure CallInput where
  id : String
  service : String
  type : String
  args : CallArgs
deriving DecidableEq, Repr

/-- Listeners other than the per-call service pair that a `call_service`
may register (parameter listeners, the one-shot connection-graph listener). -/
inductive RegListener where
  | param (name : String) (emitId : String)
  | graph (emitId : String)
deriving DecidableEq, Repr

/-- The rosapi pseudo-service dispatch at the top of `#callService`: the
if/else chain over `message.type`.  Returns the transport commands issued,
the emissions produced synchronously, and the extra listeners registered.
Unrecognized `rosapi/` types (and non-rosapi types) fall through with no
effect beyond logging. -/
def pseudoDispatch (s : SocketState) (m : CallInput) :
    List Command × List Emission × List RegListener :=
  if m.type = "rosapi/GetParam" then
    let r := doGetParam m.id (argsName m.args)
    (r.1, [], [RegListener.param r.2.name r.2.emitId])
  else if m.type = "rosapi/SetParam" then
    let n := jsReplaceColonDot (argsName m.args)
    ([Command.setParameters [(n, argsValue m.args)] m.id], [],
     [RegListener.param n m.id])
  else if m.type = "rosapi/Topics" then
    ([], [{ id := m.id,
            values := .topics (s.channelsByName.map Prod.fst)
                        (s.channelsByName.map (fun p => p.2.schemaName)),
            result := true }], [])
  else if m.type = "rosapi/Services" then
    ([Command.subscribeConnectionGraph], [], [RegListener.graph m.id])
  else if m.type = "rosapi/TopicType" then
    match alFind (argsTopic m.args) s.channelsByName with
    | some ch => ([], [{ id := m.id, values := .typeName ch.schemaName,
                         result := true }], [])
    | none => ([], [{ id := m.id, values := .noValues, result := false }], [])
  else if m.type = "rosapi/ServiceType" then
    match alFind (argsService m.args) s.servicesByName with
    | some sv => ([], [{ id := m.id, values := .typeName sv.type,
                         result := true }], [])
    | none => ([], [{ id := m.id, values := .noValues, result := false }], [])
  else ([], [], [])

/-- What one `#callService` invocation produced. -/
structure CallServiceResult where
  state : SocketState
  cmds : List Command
  emits : List Emission
  pseudoListeners : List RegListener
  callListeners : Option (SuccessListener × FailureListener)
deriving Repr

/-- Method `#callService`: run the pseudo-service dispatch, then unconditionally
resolve the named service through the directory (suspending — registering a
service waiter — when it is not yet advertised), compile the request writer
and response reader (a throw aborts the rest of the call), take the next
call id, register the success/failure listener pair, and send exactly one
`sendServiceCallRequest`. -/
def doCallService (s : SocketState) (m : CallInput) : CallServiceResult :=
  let p := pseudoDispatch s m
  match alFind m.service s.servicesByName with
  | none =>
    { state := { s with serviceWaiters :=
                  s.serviceWaiters ++ [{ name := m.service, resolved := none }] },
      cmds := p.1, emits := p.2.1, pseudoListeners := p.2.2,
      callListeners := none }
  | some sv =>
    match getMessageWriter s.isRos2 s.messageWriters (.service sv) with
    | (.error _, wc) =>
      { state := { s with messageWriters := wc },
        cmds := p.1, emits := p.2.1, pseudoListeners := p.2.2,
        callListeners := none }
    | (.ok w, wc) =>
      match getMessageReader s.isRos2 s.messageReaders (.service sv) with
      | (.error _, rc) =>
        { state := { s with messageWriters := wc, messageReaders := rc },
          cmds := p.1, emits := p.2.1, pseudoListeners := p.2.2,
          callListeners := none }
      | (.ok r, rc) =>
        let cid := s.callId
        { state := { s with messageWriters := wc, messageReaders := rc,
                            callId := cid + 1,
                            sentCallIds := s.sentCallIds ++ [cid] },
          cmds := p.1 ++ [Command.sendServiceCallRequest sv.id cid
                            (encodingOf s.isRos2) (.request w m.args)],
          emits := p.2.1, pseudoListeners := p.2.2,
          callListeners := some
            ({ serviceId := sv.id, callId := cid, reader := r, emitId := m.id },
             { serviceId := sv.id, callId := cid, emitId := m.id }) }

/-! ## Directory invariant -/

/-- The directory indices' internal consistency: each index has pairwise
distinct keys and stores every entry under its own id / name. -/
def DirInvariant (s : SocketState) : Prop :=
  (s.channelsById.map Prod.fst).Nodup ∧
  (s.channelsByName.map Prod.fst).Nodup ∧
  (s.servicesById.map Prod.fst).Nodup ∧
  (s.servicesByName.map Prod.fst).Nodup ∧
  (∀ p ∈ s.channelsById, p.2.id = p.1) ∧
  (∀ p ∈ s.channelsByName, p.2.topic = p.1) ∧
  (∀ p ∈ s.servicesById, p.2.id = p.1) ∧
  (∀ p ∈ s.servicesByName, p.2.name = p.1)

/-! ## Helper lemmas about the directory handlers -/

theorem recordChannels_services_eq (chs : List Channel) :
    ∀ s : SocketState,
      (recordChannels s chs).servicesById = s.servicesById ∧
      (recordChannels s chs).servicesByName = s.servicesByName ∧
      (recordChannels s chs).channelWaiters = s.channelWaiters := by
  induction chs with
  | nil => intro s; exact ⟨rfl, rfl, rfl⟩
  | cons c rest ih =>
    intro s
    exact ih { s with channelsById := alSet c.id c s.channelsById,
                      channelsByName := alSet c.topic c s.channelsByName }

theorem recordServices_channels_eq (svs : List Service) :
    ∀ s : SocketState,
      (recordServices s svs).channelsById = s.channelsById ∧
      (recordServices s svs).channelsByName = s.channelsByName ∧
      (recordServices s svs).serviceWaiters = s.serviceWaiters := by
  induction svs with
  | nil => intro s; exact ⟨rfl, rfl, rfl⟩
  | cons sv rest ih =>
    intro s
    exact ih { s with servicesById := alSet sv.id sv s.servicesById,
                      servicesByName := alSet sv.name sv s.servicesByName }

theorem removeChannels_cons (s : SocketState) (cid : Nat) (rest : List Nat) :
    removeChannels s (cid :: rest) =
      removeChannels (match alFind cid s.channelsById with
        | some ch => { s with channelsById := alDel ch.id s.channelsById,
                              channelsByName := alDel ch.topic s.channelsByName }
        | none => s) rest := rfl

theorem removeServices_cons (s : SocketState) (sid : Nat) (rest : List Nat) :
    removeServices s (sid :: rest) =
      removeServices (match alFind sid s.servicesById with
        | some sv => { s with servicesById := alDel sv.id s.servicesById,
                              servicesByName := alDel sv.name s.servicesByName }
        | none => s) rest := rfl

theorem removeChannels_services_eq (ids : List Nat) :
    ∀ s : SocketState,
      (removeChannels s ids).servicesById = s.servicesById ∧
      (removeChannels s ids).servicesByName = s.servicesByName := by
  induction ids with
  | nil => intro s; exact ⟨rfl, rfl⟩
  | cons cid rest ih =>
    intro s
    rw [removeChannels_cons]
    cases hf : alFind cid s.channelsById with
    | none => exact ih s
    | some ch =>
      exact ih { s with channelsById := alDel ch.id s.channelsById,
                        channelsByName := alDel ch.topic s.channelsByName }

theorem removeServices_channels_eq (ids : List Nat) :
    ∀ s : SocketState,
      (removeServices s ids).channelsById = s.channelsById ∧
      (removeServices s ids).channelsByName = s.channelsByName := by
  induction ids with
  | nil => intro s; exact ⟨rfl, rfl⟩
  | cons sid rest ih =>
    intro s
    rw [removeServices_cons]
    cases hf : alFind sid s.servicesById with
    | none => exact ih s
    | some sv =>
      exact ih { s with servicesById := alDel sv.id s.servicesById,
                        servicesByName := alDel sv.name s.servicesByName }

theorem dirInvariant_recordChannels (chs : List Channel) :
    ∀ s, DirInvariant s → DirInvariant (recordChannels s chs) := by
  induction chs with
  | nil => intro s h; exact h
  | cons c rest ih =>
    intro s h
    obtain ⟨h1, h2, h3, h4, h5, h6, h7, h8⟩ := h
    refine ih _ ⟨alSet_keys_nodup _ _ _ h1, alSet_keys_nodup _ _ _ h2,
      h3, h4, ?_, ?_, h7, h8⟩
    · intro p hp
      rcases mem_alSet _ _ _ p hp with h' | h'
      · rw [h']
      · exact h5 p h'
    · intro p hp
      rcases mem_alSet _ _ _ p hp with h' | h'
      · rw [h']
      · exact h6 p h'

theorem dirInvariant_recordServices (svs : List Service) :
    ∀ s, DirInvariant s → DirInvariant (recordServices s svs) := by
  induction svs with
  | nil => intro s h; exact h
  | cons sv rest ih =>
    intro s h
    obtain ⟨h1, h2, h3, h4, h5, h6, h7, h8⟩ := h
    refine ih _ ⟨h1, h2, alSet_keys_nodup _ _ _ h3, alSet_keys_nodup _ _ _ h4,
      h5, h6, ?_, ?_⟩
    · intro p hp
      rcases mem_alSet _ _ _ p hp with h' | h'
      · rw [h']
      · exact h7 p h'
    · intro p hp
      rcases mem_alSet _ _ _ p hp with h' | h'
      · rw [h']
      · exact h8 p h'

theorem dirInvariant_removeChannels (ids : List Nat) :
    ∀ s, DirInvariant s → DirInvariant (removeChannels s ids) := by
  induction ids with
  | nil => intro s h; exact h
  | cons cid rest ih =>
    intro s h
    obtain ⟨h1, h2, h3, h4, h5, h6, h7, h8⟩ := h
    have hstep : DirInvariant (match alFind cid s.channelsById with
      | some ch => { s with channelsById := alDel ch.id s.channelsById,
                            channelsByName := alDel ch.topic s.channelsByName }
      | none => s) := by
      cases hf : alFind cid s.channelsById with
      | none => exact ⟨h1, h2, h3, h4, h5, h6, h7, h8⟩
      | some ch =>
        refine ⟨alDel_keys_nodup _ _ h1, alDel_keys_nodup _ _ h2, h3, h4,
          ?_, ?_, h7, h8⟩
        · intro p hp; exact h5 p (mem_alDel _ _ hp)
        · intro p hp; exact h6 p (mem_alDel _ _ hp)
    exact ih _ hstep

theorem dirInvariant_removeServices (ids : List Nat) :
    ∀ s, DirInvariant s → DirInvariant (removeServices s ids) := by
  induction ids with
  | nil => intro s h; exact h
  | cons sid rest ih =>
    intro s h
    obtain ⟨h1, h2, h3, h4, h5, h6, h7, h8⟩ := h
    have hstep : DirInvariant (match alFind sid s.servicesById with
      | some sv => { s with servicesById := alDel sv.id s.servicesById,
                            servicesByName := alDel sv.name s.servicesByName }
      | none => s) := by
      cases hf : alFind sid s.servicesById with
      | none => exact ⟨h1, h2, h3, h4, h5, h6, h7, h8⟩
      | some sv =>
        refine ⟨h1, h2, alDel_keys_nodup _ _ h3, alDel_keys_nodup _ _ h4,
          h5, h6, ?_, ?_⟩
        · intro p hp; exact h7 p (mem_alDel _ _ hp)
        · intro p hp; exact h8 p (mem_alDel _ _ hp)
    exact ih _ hstep

theorem dirInvariant_applyDirEvent (s : SocketState) (e : DirEvent)
    (h : DirInvariant s) : DirInvariant (applyDirEvent s e) := by
  cases e with
  | advertiseChannels chs =>
    obtain ⟨h1, h2, h3, h4, h5, h6, h7, h8⟩ := dirInvariant_recordChannels chs s h
    exact ⟨h1, h2, h3, h4, h5, h6, h7, h8⟩
  | unadvertiseChannels ids => exact dirInvariant_removeChannels ids s h
  | advertiseServices svs =>
    obtain ⟨h1, h2, h3, h4, h5, h6, h7, h8⟩ := dirInvariant_recordServices svs s h
    exact ⟨h1, h2, h3, h4, h5, h6, h7, h8⟩
  | unadvertiseServices ids => exact dirInvariant_removeServices ids s h

theorem dirInvariant_applyDirEvents (evs : List DirEvent) :
    ∀ s, DirInvariant s → DirInvariant (applyDirEvents s evs) := by
  induction evs with
  | nil => intro s h; exact h
  | cons e rest ih =>
    intro s h
    exact ih _ (dirInvariant_applyDirEvent s e h)

theorem dirInvariant_initial (b : Bool) : DirInvariant (initialState b) := by
  refine ⟨?_, ?_, ?_, ?_, ?_, ?_, ?_, ?_⟩ <;> simp [initialState]

/-! ## Claim C2 -/

def chanA1 : Channel :=
  { id := 1, topic := "/a", encoding := "cdr", schemaName := "pkg/A",
    schema := some "int32 a", schemaEncoding := none }

def chanA2 : Channel :=
  { id := 2, topic := "/a", encoding := "cdr", schemaName := "pkg/A2",
    schema := some "int32 b", schemaEncoding := none }

/-- The directory state after the peer advertises the name `/a` under id 1
and then re-advertises it under id 2, with no unadvertise in between. -/
def dirCexState : SocketState :=
  applyDirEvents (initialState true)
    [.advertiseChannels [chanA1], .advertiseChannels [chanA2]]

/-- Claim C2 is false as stated: after the name `/a` is re-advertised under
a new id, both the id-1 and the id-2 entries remain currently advertised in
the id index and both carry the name `/a`, so a name does not map to at most
one currently-advertised channel and more than one entry per name remains
advertised.  (The advertise handler only `set`s both indices; it never
removes the old id's entry when a name moves to a new id.) -/
theorem claimC2_counterexample :
    dirCexState.channelsById = [(1, chanA1), (2, chanA2)] ∧
    chanA1.topic = "/a" ∧ chanA2.topic = "/a" ∧ chanA1.id ≠ chanA2.id ∧
    alFind "/a" dirCexState.channelsByName = some chanA2 := by
  exact ⟨rfl, rfl, rfl, by decide, rfl⟩

/-- Claim C2 (amended): for every sequence of peer advertise/unadvertise
channel and service events processed from the initial state, each index is
individually consistent — ids are pairwise distinct in the id indices, names
pairwise distinct in the name indices, and every entry is stored under its
own channel's id/topic (service's id/name).  The cross-index uniqueness the
original claim adds does not hold: re-advertising a name under a new id (or
an id under a new name) leaves the superseded entry advertised in the other
index, as the counterexample shows. -/
theorem claimC2_theorem (b : Bool) (evs : List DirEvent) :
    DirInvariant (applyDirEvents (initialState b) evs) :=
  dirInvariant_applyDirEvents evs (initialState b) (dirInvariant_initial b)

/-! ## Claims C4 and C10 -/

theorem runCallListeners_success_none (es : List ClientEvent) :
    ∀ fl : Option FailureListener,
      (runCallListeners { success := none, failure := fl } es).1.success = none ∧
      ((runCallListeners { success := none, failure := fl } es).2.filter
        (fun em => em.result)) = [] := by
  induction es with
  | nil => intro fl; exact ⟨rfl, rfl⟩
  | cons e es ih =>
    intro fl
    cases e with
    | serviceCallResponse sid cid d =>
      simpa [runCallListeners, stepCallListeners] using ih fl
    | serviceCallFailure sid cid msg =>
      cases fl with
      | none => simpa [runCallListeners, stepCallListeners] using ih none
      | some f =>
        by_cases hm : sid = f.serviceId ∧ cid = f.callId
        · simpa [runCallListeners, stepCallListeners, hm,
                 List.filter_append] using ih none
        · simpa [runCallListeners, stepCallListeners, hm] using ih (some f)

/-- Claim C4: with the success listener of a service call registered (keyed
by its `(serviceId, callId)`, with arbitrary companion failure listener),
delivering any transport event sequence produces, among the `result: true`
emissions, exactly one emission — under the caller's correlation id, with
the payload decoded by the response reader — exactly when some event carries
that exact key (the first such event supplies the payload), and none
otherwise; the listener is detached from the moment it fires and never fires
again, and non-matching `serviceCallResponse` events trigger nothing. -/
theorem claimC4_theorem (sl : SuccessListener) (fl : Option FailureListener)
    (es : List ClientEvent) :
    ((runCallListeners { success := some sl, failure := fl } es).2.filter
        (fun em => em.result)) =
      (match firstMatchingData sl es with
       | some d => [{ id := sl.emitId, values := .decoded (.value sl.reader d),
                      result := true }]
       | none => []) ∧
    (runCallListeners { success := some sl, failure := fl } es).1.success =
      (match firstMatchingData sl es with
       | some _ => none
       | none => some sl) := by
  induction es generalizing fl with
  | nil => exact ⟨rfl, rfl⟩
  | cons e es ih =>
    cases e with
    | serviceCallResponse sid cid d =>
      by_cases hm : sid = sl.serviceId ∧ cid = sl.callId
      · have h := runCallListeners_success_none es fl
        simp [runCallListeners, stepCallListeners, firstMatchingData,
              matchingResponse, hm, List.filter_append, h.1, h.2]
      · simpa [runCallListeners, stepCallListeners, firstMatchingData,
               matchingResponse, hm] using ih fl
    | serviceCallFailure sid cid msg =>
      cases fl with
      | none =>
        simpa [runCallListeners, stepCallListeners, firstMatchingData,
               matchingResponse] using ih none
      | some f =>
        by_cases hm : sid = f.serviceId ∧ cid = f.callId
        · simpa [runCallListeners, stepCallListeners, firstMatchingData,
                 matchingResponse, hm, List.filter_append] using ih none
        · simpa [runCallListeners, stepCallListeners, firstMatchingData,
                 matchingResponse, hm] using ih (some f)

/-- Claim C10: each call registers two independent one-shot listeners; a
matching `serviceCallFailure` detaches only the failure listener, leaving
the success listener registered, so a matching failure followed by a
matching response yields two emissions under the same correlation id —
`result: false` then `result: true`. -/
theorem claimC10_theorem (sid cid : Nat) (r : MessageReader) (eid m : String)
    (d : List Nat) :
    (stepCallListeners
        { success := some { serviceId := sid, callId := cid, reader := r, emitId := eid },
          failure := some { serviceId := sid, callId := cid, emitId := eid } }
        (.serviceCallFailure sid cid m)).1.success =
      some { serviceId := sid, callId := cid, reader := r, emitId := eid } ∧
    (stepCallListeners
        { success := some { serviceId := sid, callId := cid, reader := r, emitId := eid },
          failure := some { serviceId := sid, callId := cid, emitId := eid } }
        (.serviceCallFailure sid cid m)).1.failure = none ∧
    runCallListeners
        { success := some { serviceId := sid, callId := cid, reader := r, emitId := eid },
          failure := some { serviceId := sid, callId := cid, emitId := eid } }
        [.serviceCallFailure sid cid m, .serviceCallResponse sid cid d] =
      ({ success := none, failure := none },
       [{ id := eid, values := .failureMessage m, result := false },
        { id := eid, values := .decoded (.value r d), result := true }]) := by
  refine ⟨?_, ?_, ?_⟩ <;> simp [stepCallListeners, runCallListeners]

/-! ## Claim C5 -/

/-- Claim C5: a `#getChannel` lookup returns the channel immediately when the
name is in the name index; otherwise it registers a pending waiter; a pending
waiter resolves — exactly once — with the first channel of the requested name
the next time an `advertise` event carrying such a channel fires (and that
channel's topic equals the requested name), stays pending on events without
the name, and a resolved waiter never changes again; one `advertise` event
runs every registered waiter's listener, so all concurrent waiters on a name
resolve from the single event.  `#getService` behaves symmetrically. -/
theorem claimC5_theorem :
    (∀ (s : SocketState) (n : String) (c : Channel),
      alFind n s.channelsByName = some c → doGetChannel s n = (s, .immediate c)) ∧
    (∀ (s : SocketState) (n : String),
      alFind n s.channelsByName = none →
      doGetChannel s n =
        ({ s with channelWaiters := s.channelWaiters ++ [{ name := n, resolved := none }] },
         .deferred)) ∧
    (∀ (chs : List Channel) (n : String) (c : Channel),
      chs.find? (fun ch => ch.topic == n) = some c →
      resolveChannelWaiter chs { name := n, resolved := none } =
        { name := n, resolved := some c } ∧ c.topic = n) ∧
    (∀ (chs : List Channel) (n : String),
      chs.find? (fun ch => ch.topic == n) = none →
      resolveChannelWaiter chs { name := n, resolved := none } =
        { name := n, resolved := none }) ∧
    (∀ (chs : List Channel) (w : ChannelWaiter) (c : Channel),
      w.resolved = some c → resolveChannelWaiter chs w = w) ∧
    (∀ (s : SocketState) (chs : List Channel),
      (onChannelsAdvertised s chs).1.channelWaiters =
        s.channelWaiters.map (resolveChannelWaiter chs)) ∧
    (∀ (s : SocketState) (n : String) (sv : Service),
      alFind n s.servicesByName = some sv → doGetService s n = (s, .immediate sv)) ∧
    (∀ (s : SocketState) (n : String),
      alFind n s.servicesByName = none →
      doGetService s n =
        ({ s with serviceWaiters := s.serviceWaiters ++ [{ name := n, resolved := none }] },
         .deferred)) ∧
    (∀ (svs : List Service) (n : String) (sv : Service),
      svs.find? (fun x => x.name == n) = some sv →
      resolveServiceWaiter svs { name := n, resolved := none } =
        { name := n, resolved := some sv } ∧ sv.name = n) ∧
    (∀ (svs : List Service) (w : ServiceWaiter) (sv : Service),
      w.resolved = some sv → resolveServiceWaiter svs w = w) ∧
    (∀ (s : SocketState) (svs : List Service),
      (onServicesAdvertised s svs).serviceWaiters =
        s.serviceWaiters.map (resolveServiceWaiter svs)) := by
  refine ⟨?_, ?_, ?_, ?_, ?_, ?_, ?_, ?_, ?_, ?_, ?_⟩
  · intro s n c h; simp [doGetChannel, h]
  · intro s n h; simp [doGetChannel, h]
  · intro chs n c h
    refine ⟨by simp [resolveChannelWaiter, h], ?_⟩
    have := List.find?_some h
    simpa using this
  · intro chs n h; simp [resolveChannelWaiter, h]
  · intro chs w c h; simp [resolveChannelWaiter, h]
  · intro s chs
    calc (onChannelsAdvertised s chs).1.channelWaiters
        = (recordChannels s chs).channelWaiters.map (resolveChannelWaiter chs) := rfl
      _ = s.channelWaiters.map (resolveChannelWaiter chs) := by
          rw [(recordChannels_services_eq chs s).2.2]
  · intro s n sv h; simp [doGetService, h]
  · intro s n h; simp [doGetService, h]
  · intro svs n sv h
    refine ⟨by simp [resolveServiceWaiter, h], ?_⟩
    have := List.find?_some h
    simpa using this
  · intro svs w sv h; simp [resolveServiceWaiter, h]
  · intro s svs
    calc (onServicesAdvertised s svs).serviceWaiters
        = (recordServices s svs).serviceWaiters.map (resolveServiceWaiter svs) := rfl
      _ = s.serviceWaiters.map (resolveServiceWaiter svs) := by
          rw [(recordServices_channels_eq svs s).2.2]

/-- Witness for C5: a lookup of `/a` against a directory holding `/a`
returns immediately, and a pending waiter for `/a` resolves from an
advertise event carrying `chanA1`. -/
theorem claimC5_witness :
    doGetChannel { initialState true with channelsByName := [("/a", chanA1)] } "/a" =
      ({ initialState true with channelsByName := [("/a", chanA1)] },
       .immediate chanA1) ∧
    resolveChannelWaiter [chanA1] { name := "/a", resolved := none } =
      { name := "/a", resolved := some chanA1 } ∧ chanA1.topic = "/a" :=
  ⟨claimC5_theorem.1 _ "/a" chanA1 rfl,
   claimC5_theorem.2.2.1 [chanA1] "/a" chanA1 rfl⟩

/-! ## Claims C6, C7 and C9: the codec caches -/

theorem getMessageReader_hit (b : Bool) (cache : List (String × MessageReader))
    (e : Entity) (r : MessageReader)
    (h : alFind (entityName e) cache = some r) :
    getMessageReader b cache e = (.ok r, cache) := by
  unfold getMessageReader
  rw [h]

theorem getMessageReader_miss (b : Bool) (cache : List (String × MessageReader))
    (e : Entity) (h : alFind (entityName e) cache = none) :
    getMessageReader b cache e =
      match resolveReaderSchema e with
      | none => (.error "schema not found", cache)
      | some schema =>
        (.ok (compileReader b schema (resolveReaderEncoding e)),
         alSet (entityName e) (compileReader b schema (resolveReaderEncoding e)) cache) := by
  unfold getMessageReader
  rw [h]

theorem getMessageWriter_hit (b : Bool) (cache : List (String × MessageWriter))
    (e : Entity) (w : MessageWriter)
    (h : alFind (entityName e) cache = some w) :
    getMessageWriter b cache e = (.ok w, cache) := by
  unfold getMessageWriter
  rw [h]

theorem getMessageWriter_miss (b : Bool) (cache : List (String × MessageWriter))
    (e : Entity) (h : alFind (entityName e) cache = none) :
    getMessageWriter b cache e =
      match resolveWriterSchema e with
      | none => (.error "schema not found", cache)
      | some schema =>
        (.ok (compileWriter b schema (resolveWriterEncoding e)),
         alSet (entityName e) (compileWriter b schema (resolveWriterEncoding e)) cache) := by
  unfold getMessageWriter
  rw [h]

/-- Claim C6: `#getMessageReader` and `#getMessageWriter` are memoized by the
schema name extracted from the descriptor — after any request that succeeds
with codec `r` and cache `cache'`, a second request against `cache'` for any
descriptor bearing the same schema name returns the identical codec `r` and
leaves the cache exactly `cache'` (no recompilation, no cache change). -/
theorem claimC6_theorem :
    (∀ (b : Bool) (cache : List (String × MessageReader)) (e : Entity)
        (r : MessageReader) (cache' : List (String × MessageReader)) (e' : Entity),
      getMessageReader b cache e = (.ok r, cache') →
      entityName e' = entityName e →
      getMessageReader b cache' e' = (.ok r, cache')) ∧
    (∀ (b : Bool) (cache : List (String × MessageWriter)) (e : Entity)
        (w : MessageWriter) (cache' : List (String × MessageWriter)) (e' : Entity),
      getMessageWriter b cache e = (.ok w, cache') →
      entityName e' = entityName e →
      getMessageWriter b cache' e' = (.ok w, cache')) := by
  constructor
  · intro b cache e r cache' e' h he
    cases hf : alFind (entityName e) cache with
    | some r0 =>
      rw [getMessageReader_hit b cache e r0 hf] at h
      injection h with h1 h2
      injection h1 with h1
      subst h1
      subst h2
      exact getMessageReader_hit b cache e' _ (by rw [he]; exact hf)
    | none =>
      rw [getMessageReader_miss b cache e hf] at h
      cases hs : resolveReaderSchema e with
      | none =>
        rw [hs] at h
        injection h with h1 h2
        exact absurd h1 (by simp)
      | some schema =>
        rw [hs] at h
        injection h with h1 h2
        injection h1 with h1
        subst h1
        subst h2
        exact getMessageReader_hit b _ e' _ (by rw [he]; exact alFind_alSet_self _ _ _)
  · intro b cache e w cache' e' h he
    cases hf : alFind (entityName e) cache with
    | some w0 =>
      rw [getMessageWriter_hit b cache e w0 hf] at h
      injection h with h1 h2
      injection h1 with h1
      subst h1
      subst h2
      exact getMessageWriter_hit b cache e' _ (by rw [he]; exact hf)
    | none =>
      rw [getMessageWriter_miss b cache e hf] at h
      cases hs : resolveWriterSchema e with
      | none =>
        rw [hs] at h
        injection h with h1 h2
        exact absurd h1 (by simp)
      | some schema =>
        rw [hs] at h
        injection h with h1 h2
        injection h1 with h1
        subst h1
        subst h2
        exact getMessageWriter_hit b _ e' _ (by rw [he]; exact alFind_alSet_self _ _ _)

def chanM : Channel :=
  { id := 4, topic := "/m", encoding := "cdr", schemaName := "pkg/M",
    schema := some "int32 x", schemaEncoding := none }

/-- Witness for C6: compiling `pkg/M` from the empty reader cache and asking
again returns the identical codec and the unchanged cache. -/
theorem claimC6_witness :
    getMessageReader true [("pkg/M", compileReader true "int32 x" none)]
        (.channel chanM) =
      (.ok (compileReader true "int32 x" none),
       [("pkg/M", compileReader true "int32 x" none)]) :=
  claimC6_theorem.1 true [] (.channel chanM) (compileReader true "int32 x" none)
    [("pkg/M", compileReader true "int32 x" none)] (.channel chanM) rfl rfl

def readerPkgT : MessageReader := compileReader true "int32 x" none

def svcNoSchema : Service :=
  { id := 9, name := "/nos", type := "pkg/T", request := none, response := none,
    requestSchema := none, responseSchema := none }

/-- Claim C7 is false as stated: a descriptor whose resolved response schema
text is absent does *not* make `#getMessageReader` throw when its schema name
is already in the reader cache — the cached codec is returned and no error is
raised, because the schema check only runs on a cache miss. -/
theorem claimC7_counterexample :
    resolveReaderSchema (.service svcNoSchema) = none ∧
    getMessageReader true [("pkg/T", readerPkgT)] (.service svcNoSchema) =
      (.ok readerPkgT, [("pkg/T", readerPkgT)]) :=
  ⟨rfl, rfl⟩

/-- Claim C7 (amended): when the schema name extracted from the descriptor is
not yet cached and the resolved schema text is absent, `#getMessageReader` /
`#getMessageWriter` fail synchronously with the `schema not found` error and
leave the codec cache unchanged — no entry is added for that schema name.
(When the name is already cached the cached codec is returned instead, as
the counterexample shows.) -/
theorem claimC7_theorem :
    (∀ (b : Bool) (cache : List (String × MessageReader)) (e : Entity),
      alFind (entityName e) cache = none → resolveReaderSchema e = none →
      getMessageReader b cache e = (.error "schema not found", cache)) ∧
    (∀ (b : Bool) (cache : List (String × MessageWriter)) (e : Entity),
      alFind (entityName e) cache = none → resolveWriterSchema e = none →
      getMessageWriter b cache e = (.error "schema not found", cache)) := by
  constructor
  · intro b cache e h1 h2
    rw [getMessageReader_miss b cache e h1, h2]
  · intro b cache e h1 h2
    rw [getMessageWriter_miss b cache e h1, h2]

/-- Witness for C7: the schema-less service descriptor against the empty
cache fails with the error and adds nothing. -/
theorem claimC7_witness :
    getMessageReader true [] (.service svcNoSchema) =
      (.error "schema not found", []) :=
  claimC7_theorem.1 true [] (.service svcNoSchema) rfl rfl

/-- Claim C9: the codec caches are keyed by bare name shared across entity
kinds (a channel by `schemaName`, a service by `type`), so when a channel's
schema name equals a service's type, whichever descriptor compiles first
supplies the single cached codec returned for both thereafter: a service's
response is then decoded by the codec compiled from the channel's message
schema, or vice versa (and likewise for writers). -/
theorem claimC9_theorem :
    (∀ (b : Bool) (cache : List (String × MessageReader)) (ch : Channel)
        (sv : Service) (sch : String),
      ch.schema = some sch → sv.type = ch.schemaName →
      alFind ch.schemaName cache = none →
      getMessageReader b cache (.channel ch) =
        (.ok (compileReader b sch ch.schemaEncoding),
         alSet ch.schemaName (compileReader b sch ch.schemaEncoding) cache) ∧
      getMessageReader b
          (alSet ch.schemaName (compileReader b sch ch.schemaEncoding) cache)
          (.service sv) =
        (.ok (compileReader b sch ch.schemaEncoding),
         alSet ch.schemaName (compileReader b sch ch.schemaEncoding) cache)) ∧
    (∀ (b : Bool) (cache : List (String × MessageReader)) (ch : Channel)
        (sv : Service) (si : SchemaInfo),
      sv.response = some si → sv.type = ch.schemaName →
      alFind sv.type cache = none →
      getMessageReader b cache (.service sv) =
        (.ok (compileReader b si.schema si.schemaEncoding),
         alSet sv.type (compileReader b si.schema si.schemaEncoding) cache) ∧
      getMessageReader b
          (alSet sv.type (compileReader b si.schema si.schemaEncoding) cache)
          (.channel ch) =
        (.ok (compileReader b si.schema si.schemaEncoding),
         alSet sv.type (compileReader b si.schema si.schemaEncoding) cache)) ∧
    (∀ (b : Bool) (cache : List (String × MessageWriter)) (ch : Channel)
        (sv : Service) (sch : String),
      ch.schema = some sch → sv.type = ch.schemaName →
      alFind ch.schemaName cache = none →
      getMessageWriter b cache (.channel ch) =
        (.ok (compileWriter b sch ch.schemaEncoding),
         alSet ch.schemaName (compileWriter b sch ch.schemaEncoding) cache) ∧
      getMessageWriter b
          (alSet ch.schemaName (compileWriter b sch ch.schemaEncoding) cache)
          (.service sv) =
        (.ok (compileWriter b sch ch.schemaEncoding),
         alSet ch.schemaName (compileWriter b sch ch.schemaEncoding) cache)) := by
  refine ⟨?_, ?_, ?_⟩
  · intro b cache ch sv sch h1 h2 h3
    constructor
    · rw [getMessageReader_miss b cache (.channel ch) h3]
      simp only [resolveReaderSchema, resolveReaderEncoding, entityName]
      rw [h1]
    · exact getMessageReader_hit b _ (.service sv) _
        (by simp only [entityName]; rw [h2]; exact alFind_alSet_self _ _ _)
  · intro b cache ch sv si h1 h2 h3
    constructor
    · rw [getMessageReader_miss b cache (.service sv) h3]
      simp only [resolveReaderSchema, resolveReaderEncoding, entityName]
      rw [h1]
      rfl
    · exact getMessageReader_hit b _ (.channel ch) _
        (by simp only [entityName]; rw [← h2]; exact alFind_alSet_self _ _ _)
  · intro b cache ch sv sch h1 h2 h3
    constructor
    · rw [getMessageWriter_miss b cache (.channel ch) h3]
      simp only [resolveWriterSchema, resolveWriterEncoding, entityName]
      rw [h1]
    · exact getMessageWriter_hit b _ (.service sv) _
        (by simp only [entityName]; rw [h2]; exact alFind_alSet_self _ _ _)

def svcShareM : Service :=
  { id := 5, name := "/sharem", type := "pkg/M", request := none,
    response := none, requestSchema := none,
    responseSchema := some "string other" }

/-- Witness for C9: `pkg/M` compiled first from channel `chanM`'s schema is
the codec later returned for service `svcShareM` of type `pkg/M`, even
though the service declares a different response schema. -/
theorem claimC9_witness :
    getMessageReader true [] (.channel chanM) =
      (.ok (compileReader true "int32 x" none),
       [("pkg/M", compileReader true "int32 x" none)]) ∧
    getMessageReader true [("pkg/M", compileReader true "int32 x" none)]
        (.service svcShareM) =
      (.ok (compileReader true "int32 x" none),
       [("pkg/M", compileReader true "int32 x" none)]) :=
  claimC9_theorem.1 true [] chanM svcShareM "int32 x" rfl rfl rfl

/-! ## Claim C8 -/

/-- Claim C8: the get-param pseudo-service called with `args.name`
`"node:use_sim_time"` converts the colon separator to a dot and issues a
parameter fetch for `"node.use_sim_time"`; a `parameterValues` event whose
first parameter carries exactly that converted name and whose id equals the
call's correlation id triggers exactly one emission
`{values: {value: "true"}, result: true}` when the remote value is the
boolean `true`, the listener detaching so it can never fire again. -/
theorem claimC8_theorem :
    jsReplaceColonDot "node:use_sim_time" = "node.use_sim_time" ∧
    (∀ reqId : String,
      (doGetParam reqId "node:use_sim_time").1 =
        [Command.getParameters ["node.use_sim_time"] reqId]) ∧
    (∀ reqId : String,
      (doGetParam reqId "node:use_sim_time").2 =
        { name := "node.use_sim_time", emitId := reqId }) ∧
    (∀ (reqId : String) (rest : List (String × ParamValue)),
      stepParamListener (some { name := "node.use_sim_time", emitId := reqId })
        { id := reqId,
          parameters := ("node.use_sim_time", .boolVal true) :: rest } =
      (none, [{ id := reqId, values := .paramValue "true", result := true }])) ∧
    (∀ e : ParamEvent, stepParamListener none e = (none, [])) := by
  refine ⟨by decide, ?_, ?_, ?_, ?_⟩
  · intro reqId; rfl
  · intro reqId; rfl
  · intro reqId rest
    simp [stepParamListener, jsonStringify]
  · intro e; rfl

/-! ## Claim C1 -/

def pubWriterT : MessageWriter := compileWriter true "int32 x" none

def chanT : Channel :=
  { id := 7, topic := "/t", encoding := "cdr", schemaName := "pkg/M",
    schema := some "int32 x", schemaEncoding := none }

/-- C1 trace: caller advertises `/t`, the peer advertises the matching
channel (resolving the stored publish promise), caller unadvertises. -/
def c1AfterAdvertise : SocketState :=
  (doAdvertise (initialState true) "/t" "pkg/M").1

def c1AfterEvent : SocketState :=
  (onChannelsAdvertised c1AfterAdvertise [chanT]).1

def c1AfterUnadvertise : SocketState :=
  (doUnadvertise c1AfterEvent "/t").1

/-- Claim C1 is false as stated: after advertise, channel arrival and
unadvertise, the publish handle is still registered in `#publishByName`
(`#unadvertise` deletes only the unadvertise closure), so the next publish
verb on the topic is not dropped — the payload is serialized and a
`sendMessage` is issued to the transport with the stale publisher id 0. -/
theorem claimC1_counterexample :
    alFind "/t" c1AfterUnadvertise.unadvertiseByName = none ∧
    alFind "/t" c1AfterUnadvertise.publishByName = some (.ready 0 pubWriterT) ∧
    (doPublish c1AfterUnadvertise "/t" "m").2 =
      [Command.sendMessage 0 (.message pubWriterT "m")] :=
  ⟨rfl, rfl, rfl⟩

/-- Claim C1 (amended): `#unadvertise` invokes and removes only the stored
unadvertise closure and never touches `#publishByName`, so a publish issued
after unadvertise still serializes and sends through the stale publisher id;
a publish verb is silently dropped — no command issued, no payload
serialized — exactly when the topic has no `#publishByName` entry, i.e. was
never advertised in the session. -/
theorem claimC1_theorem :
    (∀ (s : SocketState) (topic msg : String),
      alFind topic s.publishByName = none → doPublish s topic msg = (s, [])) ∧
    (∀ (s : SocketState) (topic : String),
      (doUnadvertise s topic).1.publishByName = s.publishByName) ∧
    (doPublish c1AfterUnadvertise "/t" "m").2 =
      [Command.sendMessage 0 (.message pubWriterT "m")] := by
  refine ⟨?_, ?_, rfl⟩
  · intro s topic msg h
    unfold doPublish
    rw [h]
  · intro s topic
    rfl

/-- Witness for C1 (amended): a publish on a never-advertised topic from the
initial state is dropped without any transport command. -/
theorem claimC1_witness :
    doPublish (initialState true) "/q" "m" = (initialState true, []) :=
  claimC1_theorem.1 (initialState true) "/q" "m" rfl

/-! ## Claim C3 -/

theorem pseudoDispatch_no_request (s : SocketState) (m : CallInput) :
    (pseudoDispatch s m).1.countP Command.isServiceCallRequest = 0 := by
  unfold pseudoDispatch
  repeat' split
  all_goals
    simp [doGetParam, Command.isServiceCallRequest, List.countP_cons,
      List.countP_nil]

/-- Claim C3: every `call_service` invocation — whatever `message.type` is,
one of the six rosapi pseudo-service types included — also resolves the
named service through the directory, compiles the request writer and
response reader, and (when service and codecs resolve) sends exactly one
`sendServiceCallRequest`, placed after any pseudo-service commands, whose
`callId` is the current counter value and hence strictly greater than every
call id previously sent in the session; the counter increments by exactly
one per sent call and starts at 0 in the initial state. -/
theorem claimC3_theorem (s : SocketState) (m : CallInput) (sv : Service)
    (w : MessageWriter) (wc : List (String × MessageWriter))
    (r : MessageReader) (rc : List (String × MessageReader))
    (hsv : alFind m.service s.servicesByName = some sv)
    (hw : getMessageWriter s.isRos2 s.messageWriters (.service sv) = (.ok w, wc))
    (hr : getMessageReader s.isRos2 s.messageReaders (.service sv) = (.ok r, rc))
    (hmono : ∀ c ∈ s.sentCallIds, c < s.callId) :
    (doCallService s m).cmds =
      (pseudoDispatch s m).1 ++
        [Command.sendServiceCallRequest sv.id s.callId (encodingOf s.isRos2)
          (.request w m.args)] ∧
    (doCallService s m).cmds.countP Command.isServiceCallRequest = 1 ∧
    (∀ c ∈ s.sentCallIds, c < s.callId) ∧
    (doCallService s m).state.callId = s.callId + 1 ∧
    (doCallService s m).state.sentCallIds = s.sentCallIds ++ [s.callId] ∧
    (∀ c ∈ (doCallService s m).state.sentCallIds,
      c < (doCallService s m).state.callId) ∧
    (doCallService s m).callListeners =
      some ({ serviceId := sv.id, callId := s.callId, reader := r, emitId := m.id },
            { serviceId := sv.id, callId := s.callId, emitId := m.id }) ∧
    (initialState s.isRos2).callId = 0 ∧
    (initialState s.isRos2).sentCallIds = [] := by
  have hcall : doCallService s m =
      { state := { s with messageWriters := wc, messageReaders := rc,
                          callId := s.callId + 1,
                          sentCallIds := s.sentCallIds ++ [s.callId] },
        cmds := (pseudoDispatch s m).1 ++
          [Command.sendServiceCallRequest sv.id s.callId (encodingOf s.isRos2)
            (.request w m.args)],
        emits := (pseudoDispatch s m).2.1,
        pseudoListeners := (pseudoDispatch s m).2.2,
        callListeners := some
          ({ serviceId := sv.id, callId := s.callId, reader := r, emitId := m.id },
           { serviceId := sv.id, callId := s.callId, emitId := m.id }) } := by
    unfold doCallService
    simp only [hsv, hw, hr]
  refine ⟨?_, ?_, hmono, ?_, ?_, ?_, ?_, rfl, rfl⟩
  · rw [hcall]
  · rw [hcall]
    simp [List.countP_append, pseudoDispatch_no_request,
      Command.isServiceCallRequest, List.countP_cons]
  · rw [hcall]
  · rw [hcall]
  · rw [hcall]
    intro c hc
    simp only [List.mem_append, List.mem_singleton] at hc
    rcases hc with hc | hc
    · exact Nat.lt_succ_of_lt (hmono c hc)
    · exact hc ▸ Nat.lt_succ_self _
  · rw [hcall]

def svcCall : Service :=
  { id := 3, name := "/srv", type := "pkg/Srv",
    request := some { schema := "int32 a", schemaEncoding := none },
    response := some { schema := "int32 b", schemaEncoding := none },
    requestSchema := none, responseSchema := none }

def c3State : SocketState :=
  { initialState true with servicesByName := [("/srv", svcCall)] }

def c3Input : CallInput :=
  { id := "call1", service := "/srv", type := "rosapi/GetParam",
    args := .named "a:b" }

/-- Witness for C3: a call of the (pseudo-typed) `rosapi/GetParam` service
against an advertised `/srv` from the initial state sends exactly one
`sendServiceCallRequest` with call id 0 and bumps the counter to 1. -/
theorem claimC3_witness :
    (doCallService c3State c3Input).cmds =
      (pseudoDispatch c3State c3Input).1 ++
        [Command.sendServiceCallRequest 3 0 (encodingOf c3State.isRos2)
          (.request (compileWriter true "int32 a" none) (.named "a:b"))] ∧
    (doCallService c3State c3Input).cmds.countP Command.isServiceCallRequest = 1 ∧
    (∀ c ∈ c3State.sentCallIds, c < c3State.callId) ∧
    (doCallService c3State c3Input).state.callId = 1 ∧
    (doCallService c3State c3Input).state.sentCallIds = [0] ∧
    (∀ c ∈ (doCallService c3State c3Input).state.sentCallIds,
      c < (doCallService c3State c3Input).state.callId) ∧
    (doCallService c3State c3Input).callListeners =
      some ({ serviceId := 3, callId := 0,
              reader := compileReader true "int32 b" none, emitId := "call1" },
            { serviceId := 3, callId := 0, emitId := "call1" }) ∧
    (initialState c3State.isRos2).callId = 0 ∧
    (initialState c3State.isRos2).sentCallIds = [] :=
  claimC3_theorem c3State c3Input svcCall (compileWriter true "int32 a" none)
    [("pkg/Srv", compileWriter true "int32 a" none)]
    (compileReader true "int32 b" none)
    [("pkg/Srv", compileReader true "int32 b" none)]
    rfl rfl rfl (by simp [c3State, initialState])

end FoxgloveBridge
